import Mathlib

/-!
Shallow embedding of the network controller (`BridgeNetwork` in
`simplecloud/network.py`): the free address pool (a sorted set of host
addresses), the container-to-address binding dict, the reservation dict,
and the operations `add_container`, `remove_container`, `_get_next_address`,
`_remove_ip`, `_add_ip`, the two membership event handlers, and the two
construction paths (`create_network` and `attach_to_existing_network`).

IPv4 addresses are modelled as natural numbers; the subnet's host range is
a sorted duplicate-free list of naturals.  Python dicts are association
lists with unique keys; the `SortedSet` pool is a sorted list.  The engine
(docker) calls are oracles: the attach call's outcome is a boolean
parameter, the detach call swallows its engine error as the source does.
-/

namespace SimpleCloud

/-- Lookup in a Python-dict modelled as an association list. -/
def dlookup {α : Type} : List (String × α) → String → Option α
  | [], _ => none
  | (k1, v) :: t, k => if k1 = k then some v else dlookup t k

/-- Dict assignment `d[k] = v`: overwrite in place, or append a fresh key. -/
def dinsert {α : Type} (k : String) (v : α) : List (String × α) → List (String × α)
  | [] => [(k, v)]
  | (k1, v1) :: t => if k1 = k then (k, v) :: t else (k1, v1) :: dinsert k v t

/-- Dict `d.pop(k, None)`: the removed value, if any, and the remaining dict. -/
def dpop {α : Type} (k : String) : List (String × α) → Option α × List (String × α)
  | [] => (none, [])
  | (k1, v) :: t =>
    if k1 = k then (some v, t)
    else ((dpop k t).1, (k1, v) :: (dpop k t).2)

/-- Dict membership test `k in d`. -/
def containsKey {α : Type} (c : List (String × α)) (k : String) : Bool :=
  (dlookup c k).isSome

/-- The keys of a dict. -/
def keys {α : Type} (c : List (String × α)) : List String := c.map Prod.fst

/-- Well-formedness of a dict: keys occur at most once. -/
def keysNodup {α : Type} (c : List (String × α)) : Prop := (keys c).Nodup

/-- `SortedSet.add`: insert into a sorted duplicate-free list, a no-op when
the element is already present. -/
def poolAdd (a : Nat) : List Nat → List Nat
  | [] => [a]
  | b :: t => if a < b then a :: b :: t else if a = b then b :: t else b :: poolAdd a t

/-- Controller state: the fields of `BridgeNetwork` that the claims are
about.  `containers` values are `Option Nat` because the source can store
Python `None` as a binding (allocation from an empty pool); `reservations`
values are `Option Nat` because `reservations` can hold `None` for the
auto-reserved gateway key when the pool is exhausted. -/
structure St where
  networkId : String
  pool : List Nat
  containers : List (String × Option Nat)
  reservations : List (String × Option Nat)
  deriving DecidableEq

/-- The `container` argument of `add_container`: either a docker container
object carrying an `id` attribute, or a plain id string (as passed by
`attach_to_existing_network`). -/
inductive ContainerArg where
  | obj (id : String)
  | str (s : String)
  deriving DecidableEq

/-- Attribute access `container.id`: fails (AttributeError) on a plain
string. -/
def getId : ContainerArg → Option String
  | ContainerArg.obj i => some i
  | ContainerArg.str _ => none

/-- Outcome of a call to `add_container`: normal return, AttributeError on
`container.id`, or a docker APIError raised by the engine attach call. -/
inductive AddResult where
  | ok
  | attrError
  | engineError
  deriving DecidableEq

/-- `_get_next_address`: pop the numerically smallest pool element, or
return `None` when the pool is empty.  The pool is a sorted list, so the
smallest element is its head. -/
def getNextAddress : List Nat → Option Nat × List Nat
  | [] => (none, [])
  | a :: t => (some a, t)

/-- `_remove_ip`: discard an address from the pool; the `KeyError` for an
absent address is swallowed and the parsed address returned regardless. -/
def removeIp (pool : List Nat) (ip : Nat) : List Nat := pool.erase ip

/-- Address resolution inside `add_container`: a truthy stored reservation
wins, else an explicitly requested address is removed from the pool (whether
present or not), else the next free address is popped.  Returns the chosen
address (possibly `None`) and the pool after this step. -/
def resolveAddr (s : St) (addr : Option Nat) (resv : Option String) :
    Option Nat × List Nat :=
  match (match resv with
         | some k => (dlookup s.reservations k).bind id
         | none => none) with
  | some r => (some r, s.pool)
  | none =>
    match addr with
    | some a => (some a, removeIp s.pool a)
    | none => getNextAddress s.pool

/-- `add_container(container, addr, reservation)`.  Faithful to the source
order: the pool is mutated while resolving the address, then `container.id`
is evaluated (AttributeError aborts here), then the engine attach call runs
(`engineOk` is its outcome; failure aborts here), and only then is the
binding recorded. -/
def add_container (engineOk : Bool) (s : St) (container : ContainerArg)
    (addr : Option Nat) (resv : Option String) : AddResult × St :=
  let rp := resolveAddr s addr resv
  let s1 : St := { s with pool := rp.2 }
  match getId container with
  | none => (AddResult.attrError, s1)
  | some cid =>
    if engineOk then
      (AddResult.ok, { s1 with containers := dinsert cid rp.1 s1.containers })
    else
      (AddResult.engineError, s1)

/-- `remove_container(cid)`: the engine detach call's APIError is swallowed
and does not touch state; the binding is popped and, when it held a truthy
address, the address is returned to the pool. -/
def remove_container (s : St) (cid : String) : St :=
  match dpop cid s.containers with
  | (some (some a), c2) => { s with containers := c2, pool := poolAdd a s.pool }
  | (some none, c2) => { s with containers := c2 }
  | (none, c2) => { s with containers := c2 }

/-- A docker membership event: the acting network's id and the container
attribute. -/
structure Event where
  actorId : String
  container : String
  deriving DecidableEq

/-- `handler_network_connect`: ignore events for other networks; ignore a
container id that is already bound; otherwise bind the container at the
live address reported by the runtime (`liveAddr`). -/
def handler_network_connect (s : St) (ev : Event) (liveAddr : Nat)
    (engineOk : Bool) : AddResult × St :=
  if ev.actorId = s.networkId then
    if containsKey s.containers ev.container then (AddResult.ok, s)
    else add_container engineOk s (ContainerArg.obj ev.container) (some liveAddr) none
  else (AddResult.ok, s)

/-- `handler_network_disconnect`: ignore events for other networks and for
untracked container ids; otherwise release the container. -/
def handler_network_disconnect (s : St) (ev : Event) : St :=
  if ev.actorId = s.networkId then
    if containsKey s.containers ev.container then remove_container s ev.container
    else s
  else s

/-- The host addresses of a subnet: `H` consecutive addresses starting just
above the network address `base` (network and broadcast excluded), in
ascending order, as produced by `ipaddress.ip_network(...).hosts()`. -/
def hostsOfSubnet (base H : Nat) : List Nat :=
  (List.range H).map (fun i => base + 1 + i)

/-- Construction along the `create_network` path: pool seeded with all host
addresses, every caller reservation removed from it, then one further
address popped and stored under the reservation key `_` (the default
gateway). -/
def mkCreate (netId : String) (hosts : List Nat) (rs : List (String × Nat)) : St :=
  let pool1 := rs.foldl (fun p kv => removeIp p kv.2) hosts
  let g := getNextAddress pool1
  { networkId := netId
    pool := g.2
    containers := []
    reservations := dinsert "_" g.1 (rs.map (fun kv => (kv.1, some kv.2))) }

/-- One step of the adoption loop in `attach_to_existing_network`: a raised
exception aborts the whole construction, so the fold is short-circuiting.
Note the source passes the raw container id string to `add_container`. -/
def attachStep (acc : Except AddResult St) (kv : String × Nat) :
    Except AddResult St :=
  match acc with
  | Except.error e => Except.error e
  | Except.ok s =>
    match add_container true s (ContainerArg.str kv.1) (some kv.2) none with
    | (AddResult.ok, s2) => Except.ok s2
    | (r, _) => Except.error r

/-- Construction along the `attach_to_existing_network` path: pool seeded
with all host addresses; a reported gateway is removed from the pool (but
not recorded as a reservation), otherwise an address is popped into the `_`
reservation; then every reported container is adopted via `add_container`.
Returns the constructed state or the exception that escaped `__init__`. -/
def mkAttach (netId : String) (hosts : List Nat) (rs : List (String × Nat))
    (gateway : Option Nat) (reported : List (String × Nat)) :
    Except AddResult St :=
  let s0 : St :=
    { networkId := netId
      pool := hosts
      containers := []
      reservations := rs.map (fun kv => (kv.1, some kv.2)) }
  let s1 : St :=
    match gateway with
    | some g => { s0 with pool := removeIp s0.pool g }
    | none =>
      let g := getNextAddress s0.pool
      { s0 with pool := g.2, reservations := dinsert "_" g.1 s0.reservations }
  reported.foldl attachStep (Except.ok s1)

/-- The addresses currently bound to some container (Python `None` bindings
carry no address). -/
def boundVals (c : List (String × Option Nat)) : List Nat := c.filterMap Prod.snd

/-- The addresses held by the reservation dict. -/
def resVals (c : List (String × Option Nat)) : List Nat := c.filterMap Prod.snd

/-- A controller operation, as in the claim about operation sequences:
allocate (with the full `add_container` argument surface), release, and
reserve an address via a direct `_remove_ip`. -/
inductive Op where
  | alloc (cid : String) (addr : Option Nat) (resv : Option String)
  | release (cid : String)
  | reserve (addr : Nat)
  deriving DecidableEq

/-- State transition of one operation (engine attach calls succeed). -/
def stepOp (s : St) : Op → St
  | Op.alloc cid addr resv => (add_container true s (ContainerArg.obj cid) addr resv).2
  | Op.release cid => remove_container s cid
  | Op.reserve a => { s with pool := removeIp s.pool a }

/-- Run a sequence of operations. -/
def runOps (s : St) (ops : List Op) : St := ops.foldl stepOp s

/-- The addresses a `reserve` operation withholds. -/
def ghostOf : Op → List Nat
  | Op.reserve a => [a]
  | _ => []

/-- All addresses withheld by the `reserve` operations of a sequence. -/
def ghostOfOps : List Op → List Nat
  | [] => []
  | op :: rest => ghostOf op ++ ghostOfOps rest

/-- Guard for the amended invariant: allocations are fresh (no explicit
address, no reservation key) and target an unbound container id; a reserve
targets an address currently in the free pool. -/
def okOp (s : St) : Op → Bool
  | Op.alloc cid addr resv =>
      addr.isNone && resv.isNone && !(containsKey s.containers cid)
  | Op.release _ => true
  | Op.reserve a => decide (a ∈ s.pool)

/-- Guard for a whole operation sequence. -/
def okTrace (s : St) : List Op → Bool
  | [] => true
  | op :: rest => okOp s op && okTrace (stepOp s op) rest

/-- The invariant claimed for the controller, exactly as the claim states
it: pool and bound addresses disjoint, their union with the reserved
addresses is the full host range, and no address occurs more than once
across the three sets. -/
def c1Prop (hosts : List Nat) (s : St) (reserved : List Nat) : Prop :=
  (∀ a ∈ s.pool, a ∉ boundVals s.containers) ∧
  (∀ a ∈ hosts, a ∈ s.pool ∨ a ∈ boundVals s.containers ∨ a ∈ reserved) ∧
  (∀ a ∈ s.pool ++ boundVals s.containers ++ reserved, a ∈ hosts) ∧
  (s.pool ++ boundVals s.containers ++ reserved).Nodup

/-- Internal form of the invariant: the three sets concatenated are a
permutation of the host range, and the binding dict is well-formed. -/
def InvFull (hosts reserved : List Nat) (s : St) : Prop :=
  keysNodup s.containers ∧
  List.Perm (s.pool ++ boundVals s.containers ++ reserved) hosts

@[simp]
theorem keys_nil {α : Type} : keys ([] : List (String × α)) = [] := rfl

@[simp]
theorem keys_cons {α : Type} (kv : String × α) (t : List (String × α)) :
    keys (kv :: t) = kv.1 :: keys t := rfl

theorem dlookup_eq_none_iff {α : Type} (c : List (String × α)) (k : String) :
    dlookup c k = none ↔ k ∉ keys c := by
  induction c with
  | nil => simp [dlookup]
  | cons hd t ih =>
    obtain ⟨k1, v⟩ := hd
    by_cases h : k1 = k
    · subst h
      simp [dlookup]
    · rw [dlookup, if_neg h, ih]
      simp only [keys_cons, List.mem_cons, not_or]
      constructor
      · intro hnk
        exact ⟨fun he => h he.symm, hnk⟩
      · intro hnk
        exact hnk.2

theorem dinsert_eq_append {α : Type} {c : List (String × α)} {k : String} (v : α)
    (h : dlookup c k = none) : dinsert k v c = c ++ [(k, v)] := by
  induction c with
  | nil => rfl
  | cons hd t ih =>
    obtain ⟨k1, v1⟩ := hd
    simp only [dlookup] at h
    by_cases hk : k1 = k
    · simp [hk] at h
    · rw [if_neg hk] at h
      simp [dinsert, hk, ih h]

theorem dlookup_dinsert_self {α : Type} (c : List (String × α)) (k : String) (v : α) :
    dlookup (dinsert k v c) k = some v := by
  induction c with
  | nil => simp [dinsert, dlookup]
  | cons hd t ih =>
    obtain ⟨k1, v1⟩ := hd
    by_cases hk : k1 = k
    · simp [dinsert, hk, dlookup]
    · simp [dinsert, hk, dlookup, ih]

theorem dpop_fst {α : Type} (c : List (String × α)) (k : String) :
    (dpop k c).1 = dlookup c k := by
  induction c with
  | nil => rfl
  | cons hd t ih =>
    obtain ⟨k1, v⟩ := hd
    by_cases hk : k1 = k <;> simp [dpop, dlookup, hk, ih]

theorem dpop_eq_of_lookup_none {α : Type} {c : List (String × α)} {k : String}
    (h : dlookup c k = none) : dpop k c = (none, c) := by
  induction c with
  | nil => rfl
  | cons hd t ih =>
    obtain ⟨k1, v⟩ := hd
    simp only [dlookup] at h
    by_cases hk : k1 = k
    · simp [hk] at h
    · rw [if_neg hk] at h
      simp [dpop, hk, ih h]

theorem dpop_perm {α : Type} {c : List (String × α)} {k : String} {v : α} :
    ∀ {c2 : List (String × α)}, dpop k c = (some v, c2) →
      List.Perm c ((k, v) :: c2) := by
  induction c with
  | nil => intro c2 h; simp [dpop] at h
  | cons hd t ih =>
    intro c2 h
    obtain ⟨k1, v1⟩ := hd
    by_cases hk : k1 = k
    · rw [dpop, if_pos hk] at h
      obtain ⟨hv, hc⟩ := Prod.mk.injEq .. ▸ h
      obtain rfl : v1 = v := Option.some.inj hv
      subst hk
      subst hc
      exact List.Perm.refl _
    · rw [dpop, if_neg hk] at h
      obtain ⟨hv, hc⟩ := Prod.mk.injEq .. ▸ h
      have h2 : dpop k t = (some v, (dpop k t).2) := by
        rw [← hv]
      have := ih h2
      subst hc
      exact (this.cons (k1, v1)).trans (List.Perm.swap (k, v) (k1, v1) _)

theorem dpop_snd_lookup_none {α : Type} {c : List (String × α)} (k : String)
    (h : keysNodup c) : dlookup (dpop k c).2 k = none := by
  induction c with
  | nil => rfl
  | cons hd t ih =>
    obtain ⟨k1, v⟩ := hd
    have h1 : k1 ∉ keys t ∧ keysNodup t := by
      simpa [keysNodup, List.nodup_cons] using h
    by_cases hk : k1 = k
    · subst hk
      simp only [dpop, if_pos rfl]
      exact (dlookup_eq_none_iff t k1).mpr h1.1
    · simp [dpop, hk, dlookup, ih h1.2]

theorem keys_dinsert_of_lookup_some {α : Type} {c : List (String × α)} {k : String}
    {w : α} (v : α) (h : dlookup c k = some w) : keys (dinsert k v c) = keys c := by
  induction c with
  | nil => simp [dlookup] at h
  | cons hd t ih =>
    obtain ⟨k1, v1⟩ := hd
    by_cases hk : k1 = k
    · subst hk
      simp [dinsert]
    · rw [dlookup, if_neg hk] at h
      simp [dinsert, hk, ih h]

theorem mem_dinsert {α : Type} {c : List (String × α)} {k : String} {v : α}
    {e : String × α} (hk : keysNodup c) (he : e ∈ dinsert k v c) :
    e = (k, v) ∨ (e ∈ c ∧ e.1 ≠ k) := by
  induction c with
  | nil =>
    simp only [dinsert, List.mem_singleton] at he
    exact Or.inl he
  | cons hd t ih =>
    obtain ⟨k1, v1⟩ := hd
    have h1 : k1 ∉ keys t ∧ keysNodup t := by
      simpa [keysNodup, List.nodup_cons] using hk
    by_cases hkk : k1 = k
    · subst hkk
      rw [dinsert, if_pos rfl] at he
      rcases List.mem_cons.mp he with h | h
      · exact Or.inl h
      · refine Or.inr ⟨List.mem_cons_of_mem _ h, fun hfst => ?_⟩
        exact h1.1 (hfst ▸ List.mem_map_of_mem Prod.fst h)
    · rw [dinsert, if_neg hkk] at he
      rcases List.mem_cons.mp he with h | h
      · subst h
        exact Or.inr ⟨List.mem_cons_self _ _, hkk⟩
      · rcases ih h1.2 h with h2 | h2
        · exact Or.inl h2
        · exact Or.inr ⟨List.mem_cons_of_mem _ h2.1, h2.2⟩

theorem poolAdd_perm {a : Nat} {l : List Nat} (h : a ∉ l) :
    List.Perm (poolAdd a l) (a :: l) := by
  induction l with
  | nil => exact List.Perm.refl _
  | cons b t ih =>
    have hab : a ≠ b := fun he => h (by simp [he])
    have hat : a ∉ t := fun he => h (by simp [he])
    by_cases hlt : a < b
    · simp [poolAdd, hlt]
    · rw [poolAdd, if_neg hlt, if_neg hab]
      exact ((ih hat).cons b).trans (List.Perm.swap a b t)

theorem containsKey_eq_false_iff {α : Type} (c : List (String × α)) (k : String) :
    containsKey c k = false ↔ dlookup c k = none := by
  cases h : dlookup c k <;> simp [containsKey, h]

theorem boundVals_perm {c1 c2 : List (String × Option Nat)}
    (h : List.Perm c1 c2) : List.Perm (boundVals c1) (boundVals c2) :=
  h.filterMap Prod.snd

/-- One guarded operation preserves the internal invariant, the reserve
addresses moving into the reserved set. -/
theorem stepOp_inv {hosts reserved : List Nat} {s : St} {op : Op}
    (hn : hosts.Nodup) (hInv : InvFull hosts reserved s) (hop : okOp s op = true) :
    InvFull hosts (reserved ++ ghostOf op) (stepOp s op) := by
  obtain ⟨hkn, hperm⟩ := hInv
  simp only [List.append_assoc] at hperm
  cases op with
  | alloc cid addr resv =>
    simp only [okOp, Bool.and_eq_true, Option.isNone_iff_eq_none,
      Bool.not_eq_true'] at hop
    obtain ⟨⟨ha, hr⟩, hc⟩ := hop
    subst ha
    subst hr
    have hlook : dlookup s.containers cid = none :=
      (containsKey_eq_false_iff s.containers cid).mp hc
    have hkey : cid ∉ keys s.containers := (dlookup_eq_none_iff _ _).mp hlook
    cases hp : s.pool with
    | nil =>
      have hstep : stepOp s (Op.alloc cid none none) =
          { s with pool := [],
                   containers := s.containers ++ [(cid, none)] } := by
        simp [stepOp, add_container, resolveAddr, getNextAddress, hp,
          getId, dinsert_eq_append _ hlook]
      rw [hstep]
      constructor
      · simpa [keysNodup, keys, List.nodup_append] using And.intro hkn hkey
      · rw [hp] at hperm
        simpa [boundVals, List.filterMap_append, ghostOf] using hperm
    | cons p ps =>
      have hstep : stepOp s (Op.alloc cid none none) =
          { s with pool := ps,
                   containers := s.containers ++ [(cid, some p)] } := by
        simp [stepOp, add_container, resolveAddr, getNextAddress, hp,
          getId, dinsert_eq_append _ hlook]
      rw [hstep]
      constructor
      · simpa [keysNodup, keys, List.nodup_append] using And.intro hkn hkey
      · rw [hp] at hperm
        simp only [List.cons_append, List.append_assoc] at hperm
        simp only [boundVals, List.filterMap_append, List.filterMap_cons,
          List.filterMap_nil, ghostOf, List.append_nil, List.append_assoc]
        have hin : List.Perm (s.containers.filterMap Prod.snd ++ p :: reserved)
            (p :: (s.containers.filterMap Prod.snd ++ reserved)) := List.perm_middle
        have houter := (List.Perm.refl ps).append hin
        exact houter.trans (List.perm_middle.trans hperm)
  | release cid =>
    cases hdp : dpop cid s.containers with
    | mk r c2 =>
      have hr : r = dlookup s.containers cid := by
        rw [← dpop_fst s.containers cid, hdp]
      cases hl : dlookup s.containers cid with
      | none =>
        have hd0 : dpop cid s.containers = (none, s.containers) :=
          dpop_eq_of_lookup_none hl
        have hstep : stepOp s (Op.release cid) = s := by
          simp [stepOp, remove_container, hd0]
        rw [hstep]
        exact ⟨hkn, by simpa [ghostOf, List.append_assoc] using hperm⟩
      | some v =>
        rw [hl] at hr
        subst hr
        have hcp : List.Perm s.containers ((cid, v) :: c2) := dpop_perm hdp
        have hknew : keysNodup c2 := by
          have hkp : List.Perm (keys s.containers) (cid :: keys c2) :=
            hcp.map Prod.fst
          have := (hkp.nodup_iff).mp hkn
          exact (List.nodup_cons.mp this).2
        cases v with
        | none =>
          have hstep : stepOp s (Op.release cid) = { s with containers := c2 } := by
            simp [stepOp, remove_container, hdp]
          rw [hstep]
          refine ⟨hknew, ?_⟩
          have hbv : List.Perm (boundVals s.containers) (boundVals c2) := by
            simpa [boundVals, List.filterMap_cons] using boundVals_perm hcp
          simp only [ghostOf, List.append_nil, List.append_assoc]
          exact ((List.Perm.refl s.pool).append
            (hbv.symm.append (List.Perm.refl reserved))).trans hperm
        | some a =>
          have hstep : stepOp s (Op.release cid) =
              { s with containers := c2, pool := poolAdd a s.pool } := by
            simp [stepOp, remove_container, hdp]
          rw [hstep]
          refine ⟨hknew, ?_⟩
          have hbv : List.Perm (boundVals s.containers) (a :: boundVals c2) := by
            simpa [boundVals, List.filterMap_cons] using boundVals_perm hcp
          have hnd : (s.pool ++ (boundVals s.containers ++ reserved)).Nodup :=
            (hperm.nodup_iff).mpr hn
          have hain : a ∈ boundVals s.containers := hbv.mem_iff.mpr (by simp)
          have hanp : a ∉ s.pool := by
            intro hap
            exact (List.nodup_append.mp hnd).2.2 hap (by simp [hain])
          have hpa : List.Perm (poolAdd a s.pool) (a :: s.pool) := poolAdd_perm hanp
          simp only [ghostOf, List.append_nil, List.append_assoc]
          have step1 : List.Perm (poolAdd a s.pool ++ (boundVals c2 ++ reserved))
              ((a :: s.pool) ++ (boundVals c2 ++ reserved)) :=
            hpa.append (List.Perm.refl _)
          have step2 : List.Perm (s.pool ++ (boundVals s.containers ++ reserved))
              (s.pool ++ ((a :: boundVals c2) ++ reserved)) :=
            (List.Perm.refl s.pool).append (hbv.append (List.Perm.refl reserved))
          have step3 : List.Perm (s.pool ++ ((a :: boundVals c2) ++ reserved))
              (a :: (s.pool ++ (boundVals c2 ++ reserved))) := by
            have e1 : s.pool ++ ((a :: boundVals c2) ++ reserved) =
                s.pool ++ (a :: (boundVals c2 ++ reserved)) := rfl
            rw [e1]
            exact List.perm_middle
          exact step1.trans ((step2.trans step3).symm.trans hperm)
  | reserve a =>
    have ha : a ∈ s.pool := of_decide_eq_true hop
    have hstep : stepOp s (Op.reserve a) = { s with pool := s.pool.erase a } := rfl
    rw [hstep]
    refine ⟨hkn, ?_⟩
    have h1 : List.Perm s.pool (a :: s.pool.erase a) := List.perm_cons_erase ha
    have h2 : List.Perm ((a :: s.pool.erase a) ++
        (boundVals s.containers ++ reserved)) hosts :=
      ((h1.append (List.Perm.refl _)).symm).trans hperm
    simp only [ghostOf, List.append_assoc]
    have e1 : s.pool.erase a ++ (boundVals s.containers ++ (reserved ++ [a])) =
        (s.pool.erase a ++ (boundVals s.containers ++ reserved)) ++ [a] := by
      simp [List.append_assoc]
    rw [e1]
    exact (List.perm_append_singleton a _).trans h2

/-- A guarded operation sequence preserves the internal invariant. -/
theorem runOps_inv {hosts : List Nat} (hn : hosts.Nodup) :
    ∀ (ops : List Op) (s : St) (reserved : List Nat),
      InvFull hosts reserved s → okTrace s ops = true →
      InvFull hosts (reserved ++ ghostOfOps ops) (runOps s ops)
  | [], s, reserved, hInv, _ => by
    simpa [runOps, ghostOfOps] using hInv
  | op :: rest, s, reserved, hInv, hok => by
    simp only [okTrace, Bool.and_eq_true] at hok
    have h1 := stepOp_inv hn hInv hok.1
    have h2 := runOps_inv hn rest (stepOp s op) (reserved ++ ghostOf op) h1 hok.2
    simpa [runOps, ghostOfOps, List.append_assoc] using h2

/-- Removing a duplicate-free batch of present addresses from the pool, as
`create_network` does for the caller reservations, splits the pool as a
permutation. -/
theorem foldl_removeIp_perm :
    ∀ (rs : List (String × Nat)) (pool : List Nat),
      (rs.map Prod.snd).Nodup → (∀ kv ∈ rs, kv.2 ∈ pool) → pool.Nodup →
      List.Perm (rs.foldl (fun p kv => removeIp p kv.2) pool ++ rs.map Prod.snd) pool
  | [], pool, _, _, _ => by simp
  | kv :: rest, pool, h1, h2, h3 => by
    have hmem : kv.2 ∈ pool := h2 kv (List.mem_cons_self kv rest)
    simp only [List.map_cons, List.nodup_cons] at h1
    have h2x : ∀ e ∈ rest, e.2 ∈ pool.erase kv.2 := by
      intro e he
      have hev : e.2 ∈ rest.map Prod.snd := List.mem_map_of_mem Prod.snd he
      have hne : e.2 ≠ kv.2 := by
        intro hEq
        rw [hEq] at hev
        exact h1.1 hev
      exact (List.mem_erase_of_ne hne).mpr (h2 e (List.mem_cons_of_mem kv he))
    have ih := foldl_removeIp_perm rest (pool.erase kv.2) h1.2 h2x (h3.erase kv.2)
    simp only [List.foldl_cons, List.map_cons]
    have e1 : rest.foldl (fun p e => removeIp p e.2) (removeIp pool kv.2) ++
        kv.2 :: rest.map Prod.snd =
        rest.foldl (fun p e => removeIp p e.2) (pool.erase kv.2) ++
        kv.2 :: rest.map Prod.snd := rfl
    rw [e1]
    exact List.perm_middle.trans ((ih.cons kv.2).trans
      (List.perm_cons_erase hmem).symm)

theorem resVals_map :
    ∀ (rs : List (String × Nat)),
      resVals (rs.map (fun kv => (kv.1, some kv.2))) = rs.map Prod.snd
  | [] => rfl
  | kv :: rest => by
    simpa [resVals, List.filterMap_cons] using resVals_map rest

/-- The state built by the `create_network` path satisfies the internal
invariant, its reserved set being the values held by its reservation dict,
provided the caller reservations are distinct host addresses and do not use
the auto-gateway key. -/
theorem mkCreate_inv (netId : String) (hosts : List Nat) (rs : List (String × Nat))
    (hn : hosts.Nodup) (h1 : (rs.map Prod.snd).Nodup)
    (h2 : ∀ kv ∈ rs, kv.2 ∈ hosts) (h3 : ∀ kv ∈ rs, kv.1 ≠ "_") :
    InvFull hosts (resVals (mkCreate netId hosts rs).reservations)
      (mkCreate netId hosts rs) := by
  have hfold := foldl_removeIp_perm rs hosts h1 h2 hn
  have hkey : dlookup (rs.map (fun kv => (kv.1, some kv.2))) "_" = none := by
    apply (dlookup_eq_none_iff _ _).mpr
    intro hmem
    simp only [keys, List.map_map] at hmem
    obtain ⟨kv, hkv, hEq⟩ := List.mem_map.mp hmem
    exact h3 kv hkv hEq
  have hcont : (mkCreate netId hosts rs).containers = [] := by
    simp [mkCreate]
  constructor
  · simp [hcont, keysNodup]
  · cases hpool : rs.foldl (fun p kv => removeIp p kv.2) hosts with
    | nil =>
      rw [hpool] at hfold
      have hres : (mkCreate netId hosts rs).reservations =
          rs.map (fun kv => (kv.1, some kv.2)) ++ [("_", none)] := by
        simp [mkCreate, hpool, getNextAddress, dinsert_eq_append _ hkey]
      have hpool2 : (mkCreate netId hosts rs).pool = [] := by
        simp [mkCreate, hpool, getNextAddress]
      have hrv : resVals (rs.map (fun kv => (kv.1, some kv.2)) ++ [("_", none)]) =
          rs.map Prod.snd := by
        simp only [resVals, List.filterMap_append, List.filterMap_cons,
          List.filterMap_nil, List.append_nil]
        exact resVals_map rs
      rw [hres, hpool2, hcont, hrv]
      simpa using hfold
    | cons p ps =>
      rw [hpool] at hfold
      have hres : (mkCreate netId hosts rs).reservations =
          rs.map (fun kv => (kv.1, some kv.2)) ++ [("_", some p)] := by
        simp [mkCreate, hpool, getNextAddress, dinsert_eq_append _ hkey]
      have hpool2 : (mkCreate netId hosts rs).pool = ps := by
        simp [mkCreate, hpool, getNextAddress]
      have hrv : resVals (rs.map (fun kv => (kv.1, some kv.2)) ++ [("_", some p)]) =
          rs.map Prod.snd ++ [p] := by
        simp only [resVals, List.filterMap_append, List.filterMap_cons,
          List.filterMap_nil]
        rw [show List.filterMap Prod.snd (rs.map fun kv => (kv.1, some kv.2)) =
          rs.map Prod.snd from resVals_map rs]
      rw [hres, hpool2, hcont, hrv]
      have e1 : ps ++ boundVals [] ++ (rs.map Prod.snd ++ [p]) =
          (ps ++ rs.map Prod.snd) ++ [p] := by
        simp [boundVals, List.append_assoc]
      rw [e1]
      have hf2 : List.Perm (p :: (ps ++ rs.map Prod.snd)) hosts := by
        simpa using hfold
      exact (List.perm_append_singleton p _).trans hf2

instance keysNodupDecidable {α : Type} (c : List (String × α)) :
    Decidable (keysNodup c) := by
  unfold keysNodup
  infer_instance

instance c1PropDecidable (hosts : List Nat) (s : St) (reserved : List Nat) :
    Decidable (c1Prop hosts s reserved) := by
  unfold c1Prop
  infer_instance

theorem invFull_c1Prop {hosts reserved : List Nat} {s : St}
    (hn : hosts.Nodup) (h : InvFull hosts reserved s) : c1Prop hosts s reserved := by
  obtain ⟨-, hperm⟩ := h
  have hnd : (s.pool ++ boundVals s.containers ++ reserved).Nodup :=
    (hperm.nodup_iff).mpr hn
  refine ⟨?_, ?_, ?_, hnd⟩
  · intro a ha hb
    have h1 := List.nodup_append.mp hnd
    have h2 := List.nodup_append.mp h1.1
    exact h2.2.2 ha hb
  · intro a ha
    have := (hperm.mem_iff).mpr ha
    simpa [List.mem_append, or_assoc] using this
  · intro a ha
    exact (hperm.mem_iff).mp ha

theorem remove_container_of_lookup_none {s : St} {cid : String}
    (h : dlookup s.containers cid = none) : remove_container s cid = s := by
  simp [remove_container, dpop_eq_of_lookup_none h]

/-- C1 (as stated, counterexample): one allocation with an explicitly
requested address equal to the auto-reserved gateway binds that address
while it also stays reserved, so it occurs twice across the three sets. -/
theorem c1_invariant_counterexample :
    ¬ c1Prop (hostsOfSubnet 10 4)
        (runOps (mkCreate "net1" (hostsOfSubnet 10 4) [])
          [Op.alloc "c1" (some 11) none])
        (resVals (mkCreate "net1" (hostsOfSubnet 10 4) []).reservations ++
          ghostOfOps [Op.alloc "c1" (some 11) none]) := by
  decide

/-- C1 (amended): for sequences of fresh allocations (no explicit address,
no reservation key) targeting currently unbound container ids, releases,
and reservations of addresses currently in the free pool, all engine calls
succeeding, and starting from a `create_network` construction whose caller
reservations are distinct host addresses not keyed by the auto-gateway key,
the free pool, the bound addresses and the reserved addresses are pairwise
disjoint and their union is exactly the host range. -/
theorem c1_invariant_restricted (netId : String) (hosts : List Nat)
    (rs : List (String × Nat)) (ops : List Op)
    (hn : hosts.Nodup) (h1 : (rs.map Prod.snd).Nodup)
    (h2 : ∀ kv ∈ rs, kv.2 ∈ hosts) (h3 : ∀ kv ∈ rs, kv.1 ≠ "_")
    (hok : okTrace (mkCreate netId hosts rs) ops = true) :
    c1Prop hosts (runOps (mkCreate netId hosts rs) ops)
      (resVals (mkCreate netId hosts rs).reservations ++ ghostOfOps ops) :=
  invFull_c1Prop hn
    (runOps_inv hn ops (mkCreate netId hosts rs) _
      (mkCreate_inv netId hosts rs hn h1 h2 h3) hok)

theorem c1_invariant_restricted_witness :
    c1Prop (hostsOfSubnet 10 4)
      (runOps (mkCreate "net1" (hostsOfSubnet 10 4) [("gw", 14)])
        [Op.alloc "a" none none, Op.reserve 13, Op.release "a",
          Op.alloc "b" none none])
      (resVals (mkCreate "net1" (hostsOfSubnet 10 4) [("gw", 14)]).reservations ++
        ghostOfOps [Op.alloc "a" none none, Op.reserve 13, Op.release "a",
          Op.alloc "b" none none]) :=
  c1_invariant_restricted "net1" (hostsOfSubnet 10 4) [("gw", 14)]
    [Op.alloc "a" none none, Op.reserve 13, Op.release "a",
      Op.alloc "b" none none]
    (by decide) (by decide) (by decide) (by decide) (by decide)

/-- C2 (as stated, counterexample): a failed engine attach call does leave
the pool changed — the allocated address was removed before the call. -/
theorem c2_attach_failure_counterexample :
    (add_container false (mkCreate "net1" (hostsOfSubnet 10 4) [])
        (ContainerArg.obj "c1") none none).2.pool ≠
      (mkCreate "net1" (hostsOfSubnet 10 4) []).pool := by
  decide

/-- C2 (amended): on a fresh allocation whose engine attach call fails, the
binding map and the reservations are unchanged, but the pool has already
lost its smallest address before the call and it is not restored. -/
theorem c2_attach_failure_state (s : St) (cid : String) (p : Nat) (ps : List Nat)
    (hpool : s.pool = p :: ps) :
    (add_container false s (ContainerArg.obj cid) none none).1 =
        AddResult.engineError ∧
      (add_container false s (ContainerArg.obj cid) none none).2.containers =
        s.containers ∧
      (add_container false s (ContainerArg.obj cid) none none).2.reservations =
        s.reservations ∧
      (add_container false s (ContainerArg.obj cid) none none).2.pool = ps ∧
      (add_container false s (ContainerArg.obj cid) none none).2.pool ≠
        s.pool := by
  refine ⟨?_, ?_, ?_, ?_, ?_⟩ <;>
    simp [add_container, resolveAddr, getNextAddress, hpool, getId]

theorem c2_attach_failure_state_witness :
    (add_container false (mkCreate "net1" (hostsOfSubnet 10 4) [])
        (ContainerArg.obj "c1") none none).2.pool = [13, 14] :=
  (c2_attach_failure_state (mkCreate "net1" (hostsOfSubnet 10 4) []) "c1" 12
    [13, 14] (by decide)).2.2.2.1

/-- C3 (as stated, counterexample): address 11 is not in the free pool, yet
`add_container` reports no `AddressUnavailable` failure — it returns
normally and records the binding at 11. -/
theorem c3_no_failure_counterexample :
    11 ∉ (mkCreate "net1" (hostsOfSubnet 10 4) []).pool ∧
      (add_container true (mkCreate "net1" (hostsOfSubnet 10 4) [])
          (ContainerArg.obj "c1") (some 11) none).1 = AddResult.ok ∧
      dlookup (add_container true (mkCreate "net1" (hostsOfSubnet 10 4) [])
          (ContainerArg.obj "c1") (some 11) none).2.containers "c1" =
        some (some 11) := by
  decide

/-- C3 (amended): `add_container` never fails with `AddressUnavailable` or
`PoolExhausted`: a requested address absent from the pool is silently bound
anyway with the pool untouched, and a fresh allocation from an empty pool
returns normally, binding the container to no address. -/
theorem c3_silent_allocation (s : St) (cid : String) (a : Nat) :
    (a ∉ s.pool →
      (add_container true s (ContainerArg.obj cid) (some a) none).1 =
          AddResult.ok ∧
        dlookup (add_container true s (ContainerArg.obj cid) (some a)
          none).2.containers cid = some (some a) ∧
        (add_container true s (ContainerArg.obj cid) (some a) none).2.pool =
          s.pool) ∧
    (s.pool = [] →
      (add_container true s (ContainerArg.obj cid) none none).1 =
          AddResult.ok ∧
        dlookup (add_container true s (ContainerArg.obj cid) none
          none).2.containers cid = some none) := by
  constructor
  · intro ha
    simp [add_container, resolveAddr, getId, removeIp,
      List.erase_of_not_mem ha, dlookup_dinsert_self]
  · intro hp
    simp [add_container, resolveAddr, getNextAddress, hp, getId,
      dlookup_dinsert_self]

theorem c3_silent_allocation_witness :
    (add_container true (mkCreate "net1" (hostsOfSubnet 10 4) [])
        (ContainerArg.obj "c1") (some 99) none).2.pool =
      (mkCreate "net1" (hostsOfSubnet 10 4) []).pool :=
  ((c3_silent_allocation (mkCreate "net1" (hostsOfSubnet 10 4) []) "c1" 99).1
    (by decide)).2.2

/-- C4: a fresh allocation with no preferred address and no reservation key
returns normally, binds the container to the numerically smallest free
address, removes it from the pool, and a second fresh allocation always
yields a strictly larger address. -/
theorem c4_allocates_smallest (s : St) (cid cid2 : String) (p : Nat)
    (ps : List Nat) (hpool : s.pool = p :: ps)
    (hs : List.Sorted (fun a b => a < b) s.pool) :
    (add_container true s (ContainerArg.obj cid) none none).1 = AddResult.ok ∧
      dlookup (add_container true s (ContainerArg.obj cid)
        none none).2.containers cid = some (some p) ∧
      (∀ b ∈ s.pool, p ≤ b) ∧
      (add_container true s (ContainerArg.obj cid) none none).2.pool = ps ∧
      (∀ q qs, ps = q :: qs →
        dlookup (add_container true
            (add_container true s (ContainerArg.obj cid) none none).2
            (ContainerArg.obj cid2) none none).2.containers cid2 =
          some (some q) ∧ p < q) := by
  have h1 : add_container true s (ContainerArg.obj cid) none none =
      (AddResult.ok,
        { s with pool := ps,
                 containers := dinsert cid (some p) s.containers }) := by
    simp [add_container, resolveAddr, getNextAddress, hpool, getId]
  rw [hpool] at hs
  refine ⟨by rw [h1], ?_, ?_, by rw [h1], ?_⟩
  · rw [h1]
    exact dlookup_dinsert_self ..
  · intro b hb
    rw [hpool, List.mem_cons] at hb
    rcases hb with h | h
    · exact le_of_eq h.symm
    · exact le_of_lt (List.rel_of_sorted_cons hs b h)
  · intro q qs hq
    rw [h1]
    constructor
    · simp [add_container, resolveAddr, getNextAddress, hq, getId,
        dlookup_dinsert_self]
    · exact List.rel_of_sorted_cons hs q (by rw [hq]; exact List.mem_cons_self q qs)

theorem c4_allocates_smallest_witness :
    dlookup (add_container true (mkCreate "net1" (hostsOfSubnet 10 4) [])
        (ContainerArg.obj "c1") none none).2.containers "c1" =
      some (some 12) :=
  (c4_allocates_smallest (mkCreate "net1" (hostsOfSubnet 10 4) []) "c1" "c2" 12
    [13, 14] (by decide) (by decide)).2.1

/-- C5 (code bug): adopting a pre-existing network that reports at least one
connected container always raises: `attach_to_existing_network` passes the
raw container-id string to `add_container`, whose `container.id` attribute
access fails on a string, so construction aborts with no binding seeded. -/
theorem c5_adoption_raises (netId : String) (hosts : List Nat)
    (rs : List (String × Nat)) (gateway : Option Nat) (cid : String) (a : Nat)
    (rest : List (String × Nat)) :
    mkAttach netId hosts rs gateway ((cid, a) :: rest) =
      Except.error AddResult.attrError := by
  have habs : ∀ (e : AddResult) (l : List (String × Nat)),
      l.foldl attachStep (Except.error e) = Except.error e := by
    intro e l
    induction l with
    | nil => rfl
    | cons kv t ih => simpa [attachStep] using ih
  cases gateway with
  | some g => simp [mkAttach, attachStep, add_container, resolveAddr, getId, habs]
  | none => simp [mkAttach, attachStep, add_container, resolveAddr, getId, habs]

/-- C6: constructing the controller over a subnet with `H` host addresses
along the `create_network` path with no caller reservations leaves exactly
one reserved gateway address (the auto-reserved smallest host) and a free
pool of exactly `H - 1` addresses. -/
theorem c6_fresh_pool_size (netId : String) (base H : Nat) (hH : 1 ≤ H) :
    (mkCreate netId (hostsOfSubnet base H) []).pool.length = H - 1 ∧
    (mkCreate netId (hostsOfSubnet base H) []).reservations =
      [("_", some (base + 1))] := by
  obtain ⟨n, rfl⟩ : ∃ n, H = n + 1 := ⟨H - 1, by omega⟩
  have hh : ∃ t : List Nat, hostsOfSubnet base (n + 1) = (base + 1) :: t ∧
      t.length = n := by
    refine ⟨(List.range n).map (fun i => base + 1 + (i + 1)), ?_, by simp⟩
    simp [hostsOfSubnet, List.range_succ_eq_map, List.map_map, Function.comp]
  obtain ⟨t, ht, hlen⟩ := hh
  constructor
  · simp [mkCreate, ht, getNextAddress, hlen]
  · simp [mkCreate, ht, getNextAddress, dinsert]

theorem c6_fresh_pool_size_witness :
    (mkCreate "net1" (hostsOfSubnet 10 4) []).pool.length = 3 :=
  (c6_fresh_pool_size "net1" 10 4 (by decide)).1

/-- C7: a membership-connect event on the controller's own network for a
container id that is already bound returns the state unchanged — the pool,
the binding map and the reservations are untouched and no second address is
consumed. -/
theorem c7_connect_event_idempotent (s : St) (ev : Event) (liveAddr : Nat)
    (engineOk : Bool) (hid : ev.actorId = s.networkId)
    (hb : containsKey s.containers ev.container = true) :
    handler_network_connect s ev liveAddr engineOk = (AddResult.ok, s) := by
  simp [handler_network_connect, hid, hb]

theorem c7_connect_event_idempotent_witness :
    handler_network_connect
      { networkId := "net1", pool := [13, 14],
        containers := [("c1", some 12)], reservations := [("_", some 11)] }
      { actorId := "net1", container := "c1" } 13 true =
      (AddResult.ok,
        { networkId := "net1", pool := [13, 14],
          containers := [("c1", some 12)], reservations := [("_", some 11)] }) :=
  c7_connect_event_idempotent _ _ 13 true (by decide) (by decide)

/-- C8: releasing a container with no binding returns normally and leaves
the state unchanged, and release is idempotent: for a well-formed binding
dict, a second release of the same container is a no-op. -/
theorem c8_release_idempotent (s : St) (cid : String) :
    (dlookup s.containers cid = none → remove_container s cid = s) ∧
    (keysNodup s.containers →
      remove_container (remove_container s cid) cid =
        remove_container s cid) := by
  constructor
  · exact fun h => remove_container_of_lookup_none h
  · intro hkn
    have h2 : dlookup (remove_container s cid).containers cid = none := by
      have hx := dpop_snd_lookup_none (c := s.containers) cid hkn
      cases hdp : dpop cid s.containers with
      | mk r c2 =>
        have hc2 : (remove_container s cid).containers = c2 := by
          cases r with
          | none => simp [remove_container, hdp]
          | some v2 =>
            cases v2 with
            | none => simp [remove_container, hdp]
            | some a => simp [remove_container, hdp]
        rw [hdp] at hx
        rw [hc2]
        exact hx
    exact remove_container_of_lookup_none h2

theorem c8_release_idempotent_witness :
    remove_container (remove_container
      { networkId := "net1", pool := [13, 14],
        containers := [("c1", some 12)], reservations := [("_", some 11)] }
      "c1") "c1" =
    remove_container
      { networkId := "net1", pool := [13, 14],
        containers := [("c1", some 12)], reservations := [("_", some 11)] }
      "c1" :=
  (c8_release_idempotent
    { networkId := "net1", pool := [13, 14],
      containers := [("c1", some 12)], reservations := [("_", some 11)] }
    "c1").2 (by decide)

/-- C9: a membership-disconnect event whose container id is not currently
tracked leaves the state — binding map, free pool and reservations —
unchanged, whatever network the event is for. -/
theorem c9_disconnect_event_noop (s : St) (ev : Event)
    (hb : containsKey s.containers ev.container = false) :
    handler_network_disconnect s ev = s := by
  by_cases hid : ev.actorId = s.networkId <;>
    simp [handler_network_disconnect, hid, hb]

theorem c9_disconnect_event_noop_witness :
    handler_network_disconnect
      { networkId := "net1", pool := [13, 14],
        containers := [("c1", some 12)], reservations := [("_", some 11)] }
      { actorId := "net1", container := "zz" } =
      { networkId := "net1", pool := [13, 14],
        containers := [("c1", some 12)], reservations := [("_", some 11)] } :=
  c9_disconnect_event_noop _ _ (by decide)

/-- C10: a fresh synchronous allocation for a container id already bound to
address `a` overwrites the binding — the id still maps to exactly one
address, the new pool minimum — while `a` is neither returned to the pool
nor present in any binding afterwards: it is lost from both sets. -/
theorem c10_rebind_loses_address (s : St) (cid : String) (a p : Nat)
    (ps : List Nat) (hb : dlookup s.containers cid = some (some a))
    (hkn : keysNodup s.containers) (hap : a ∉ s.pool)
    (huniq : ∀ e ∈ s.containers, e.2 = some a → e.1 = cid)
    (hpool : s.pool = p :: ps) :
    dlookup (add_container true s (ContainerArg.obj cid)
        none none).2.containers cid = some (some p) ∧
      keysNodup (add_container true s (ContainerArg.obj cid)
        none none).2.containers ∧
      a ∉ (add_container true s (ContainerArg.obj cid) none none).2.pool ∧
      a ∉ boundVals (add_container true s (ContainerArg.obj cid)
        none none).2.containers := by
  have h1 : add_container true s (ContainerArg.obj cid) none none =
      (AddResult.ok,
        { s with pool := ps,
                 containers := dinsert cid (some p) s.containers }) := by
    simp [add_container, resolveAddr, getNextAddress, hpool, getId]
  rw [h1]
  have hnp : a ≠ p := by
    intro he
    rw [hpool, he] at hap
    exact hap (List.mem_cons_self p ps)
  refine ⟨dlookup_dinsert_self .., ?_, ?_, ?_⟩
  · have hkeq := keys_dinsert_of_lookup_some (some p) hb
    simpa [keysNodup, hkeq] using hkn
  · intro hain
    rw [hpool] at hap
    exact hap (List.mem_cons_of_mem p hain)
  · intro hain
    simp only [boundVals] at hain
    obtain ⟨e, he, hev⟩ := List.mem_filterMap.mp hain
    rcases mem_dinsert hkn he with h | h
    · rw [h] at hev
      simp only [Option.some.injEq] at hev
      exact hnp hev.symm
    · exact h.2 (huniq e h.1 hev)

theorem c10_rebind_loses_address_witness :
    dlookup (add_container true
        { networkId := "n", pool := [13], containers := [("c1", some 12)],
          reservations := [] } (ContainerArg.obj "c1") none none).2.containers
      "c1" = some (some 13) :=
  (c10_rebind_loses_address
    { networkId := "n", pool := [13], containers := [("c1", some 12)],
      reservations := [] } "c1" 12 13 [] (by decide) (by decide) (by decide)
    (by decide) (by decide)).1

end SimpleCloud
